import Mathlib

/-
Verification of the deliberation-and-consensus engine of the MDTeamGPT
repository.  The Python sources are shallowly embedded: dictionaries and
JSON-like values become the inductive type PyVal, Python string helpers
(strip, split, int, in) are reimplemented over List Char, the
HistoricalSharedPool mutation methods become pure state-passing functions,
and the retry / parsing / consensus code of the orchestrator becomes
executable Lean functions.  External capabilities (the LLM client, difflib
string similarity, TF-IDF retrieval, the filesystem) are parameters.
-/

namespace MDT

/-! ## Python string primitives -/

/-- Left curly brace character, kept out of string literals. -/
def lcb : Char := Char.ofNat 123

/-- Right curly brace character, kept out of string literals. -/
def rcb : Char := Char.ofNat 125

/-- Python whitespace test (the ASCII part of str.isspace, which is all the
source ever feeds to strip or to the regex class backslash-s). -/
def pyIsSpace (c : Char) : Bool :=
  c = ' ' || c = '\t' || c = '\n' || c = '\x0d' || c = '\x0b' || c = '\x0c'

/-- Python str.strip() on the character-list level: drop leading and
trailing whitespace. -/
def stripList (l : List Char) : List Char :=
  ((l.dropWhile pyIsSpace).reverse.dropWhile pyIsSpace).reverse

/-- Python str.strip() with no argument. -/
def pyStrip (s : String) : String := String.mk (stripList s.data)

/-- Python str.strip(junk) for an explicit junk character set, as in
strip(' .') and strip(' ... ') of the source. -/
def stripCharsList (junk : List Char) (l : List Char) : List Char :=
  ((l.dropWhile (· ∈ junk)).reverse.dropWhile (· ∈ junk)).reverse

/-- Python str.strip(junk) on strings. -/
def stripChars (junk : List Char) (s : String) : String :=
  String.mk (stripCharsList junk s.data)

/-- First index at which sep occurs in l (Python str.find on lists). -/
def findSubIdx (sep : List Char) : List Char → Option Nat
  | [] => if sep.isEmpty then some 0 else none
  | c :: rest =>
    if sep.isPrefixOf (c :: rest) then some 0
    else (findSubIdx sep rest).map (· + 1)

/-- Python substring membership test, sep in s. -/
def pyIn (sep s : String) : Bool := (findSubIdx sep.data s.data).isSome

/-- Python s.split(sep, 1): the part before the first occurrence of sep and,
when sep occurs, the part after it (later occurrences are kept intact). -/
def splitFirst (sep s : String) : String × Option String :=
  match findSubIdx sep.data s.data with
  | none => (s, none)
  | some i => (String.mk (s.data.take i),
               some (String.mk (s.data.drop (i + sep.data.length))))

/-- Digit run of a Python integer literal after its first digit: digits with
single underscores allowed between digits. -/
def pyIntCore : List Char → Bool
  | [] => true
  | c :: rest =>
    if c = '_' then
      match rest with
      | [] => false
      | d :: rest2 => d.isDigit && pyIntCore rest2
    else c.isDigit && pyIntCore rest

/-- Digit part of a Python integer literal: nonempty, starts with a digit,
single underscores only between digits. -/
def pyDigits : List Char → Bool
  | [] => false
  | c :: rest => c.isDigit && pyIntCore rest

/-- Numeric value of a digit run, ignoring underscores. -/
def digitsVal (cs : List Char) : Nat :=
  cs.foldl (fun a c => if c = '_' then a else a * 10 + (c.toNat - 48)) 0

/-- Python int(s) restricted to the successful cases: strip whitespace, an
optional sign, then digits (underscores between digits allowed); none models
the ValueError raise. -/
def pyInt (s : String) : Option Int :=
  let cs := stripList s.data
  match cs with
  | '+' :: rest => if pyDigits rest then some (digitsVal rest) else none
  | '-' :: rest => if pyDigits rest then some (-(digitsVal rest : Int)) else none
  | _ => if pyDigits cs then some ((digitsVal cs : Int)) else none

/-- Python str.startswith. -/
def pyStartswith (pre s : String) : Bool := pre.data.isPrefixOf s.data

/-- Splitter of Python s.split(sep) for a nonempty separator: cut at every
occurrence, keeping empty pieces; the fuel is the input length, which bounds
the number of cuts. -/
def splitAllGo (sep : List Char) : Nat → List Char → List (List Char)
  | 0, l => [l]
  | fuel + 1, l =>
    match findSubIdx sep l with
    | Option.none => [l]
    | some i => l.take i :: splitAllGo sep fuel (l.drop (i + sep.length))

/-- Python s.split(sep) with an explicit nonempty separator. -/
def pySplit (sep s : String) : List String :=
  (splitAllGo sep.data s.data.length s.data).map String.mk

/-- Python str.capitalize(): first character upper-cased, the rest
lower-cased (ASCII, which is all the source uses for specialty names). -/
def pyCapitalize (s : String) : String :=
  match s.data with
  | [] => ""
  | c :: rest => String.mk (c.toUpper :: rest.map Char.toLower)

/-- Substring occurrence over character lists, with the recursive call in
result position so that long scans reduce iteratively. -/
def containsSubAux (sub : List Char) : List Char → Bool
  | [] => sub.isEmpty
  | c :: rest => sub.isPrefixOf (c :: rest) || containsSubAux sub rest

/-- Bool-level substring occurrence used to state that a prompt does or does
not contain a piece of text. -/
def containsSub (sub s : String) : Bool := containsSubAux sub.data s.data

/-! ## Values stored in the historical shared pool -/

/-- JSON-like Python values that flow through HistoricalSharedPool: strings,
ints, lists, dicts (as insertion-ordered association lists) and None. -/
inductive PyVal where
  | str (s : String)
  | int (n : Int)
  | list (xs : List PyVal)
  | dict (kvs : List (String × PyVal))
  | none
deriving Repr

/-- Lookup in an insertion-ordered dict (first matching key). -/
def assocGet (kvs : List (String × PyVal)) (k : String) : Option PyVal :=
  (kvs.find? (fun kv => kv.1 = k)).map (·.2)

/-- Python dict.update(new): existing keys keep their position and take the
new value, keys only in new are appended in order. -/
def dictUpdate (old new : List (String × PyVal)) : List (String × PyVal) :=
  (old.map (fun kv =>
    match new.find? (fun kv2 => kv2.1 = kv.1) with
    | some kv2 => (kv.1, kv2.2)
    | Option.none => kv))
  ++ new.filter (fun kv2 => !(old.any (fun kv => kv.1 = kv2.1)))

/-- The merge applied by MDTeamGPT_2_update/utils/shared_pool.py
add_statements when the key is already in the pool: dict-dict merges with
new keys winning, list-list concatenates, any other combination is
overwritten by the new value. -/
def mergeValue2 (old new : PyVal) : PyVal :=
  match old, new with
  | .dict a, .dict b => .dict (dictUpdate a b)
  | .list a, .list b => .list (a ++ b)
  | _, _ => new

/-- The merge applied by MDTeamGPT_1/utils/shared_pool.py add_statements
when the round key is already in the pool: list-list extends, dict-dict
merges, and on any other combination the pool entry becomes the two-element
list holding the old and the new value. -/
def mergeValue1 (old new : PyVal) : PyVal :=
  match old, new with
  | .list a, .list b => .list (a ++ b)
  | .dict a, .dict b => .dict (dictUpdate a b)
  | _, _ => .list [old, new]

/-- Write key k of the pool in place: an existing entry keeps its position,
a fresh key is appended. -/
def poolSet (pool : List (String × PyVal)) (k : String) (v : PyVal) :
    List (String × PyVal) :=
  if pool.any (fun kv => kv.1 = k) then
    pool.map (fun kv => if kv.1 = k then (kv.1, v) else kv)
  else pool ++ [(k, v)]

/-- HistoricalSharedPool.add_statements of MDTeamGPT_2_update: iterate the
statements dict in order; a key already in the pool is merged with
mergeValue2, a new key is appended.  The save_to_file side effect is
filesystem output and is not modelled. -/
def add_statements2 (pool : List (String × PyVal))
    (statements : List (String × PyVal)) : List (String × PyVal) :=
  statements.foldl (fun p kv =>
    match assocGet p kv.1 with
    | some old => poolSet p kv.1 (mergeValue2 old kv.2)
    | Option.none => p ++ [kv]) pool

/-- Initial pool of MDTeamGPT_2_update HistoricalSharedPool.__init__ (the
timestamp string is produced by datetime and passed in). -/
def initPool2 (case_id : PyVal) (ts : String) : List (String × PyVal) :=
  [("question_id", case_id), ("question", PyVal.none), ("options", PyVal.none),
   ("timestamp", PyVal.str ts), ("primary_care_assignment", PyVal.none)]

/-- State of the MDTeamGPT_1 HistoricalSharedPool: the pool plus the
current_round counter, which starts at 0. -/
structure Pool1 where
  pool : List (String × PyVal)
  current_round : Int
deriving Repr

/-- HistoricalSharedPool.add_statements of MDTeamGPT_1: an empty statements
dict returns unchanged; otherwise the first key must start with
"round " and its second space-separated token must parse as an int
(ValueError otherwise, raised before the pool is touched); current_round is
raised to the parsed round number and the first key is stored, merging with
mergeValue1 when it already exists.  Keys after the first are ignored, as in
the source. -/
def add_statements1 (st : Pool1) (statements : List (String × PyVal)) :
    Except String Pool1 :=
  match statements with
  | [] => .ok st
  | (round_key, v) :: _ =>
    if pyStartswith "round " round_key then
      match pySplit " " round_key with
      | _ :: tok :: _ =>
        match pyInt tok with
        | some round_num =>
          let cur := max st.current_round round_num
          match assocGet st.pool round_key with
          | some old => .ok ⟨poolSet st.pool round_key (mergeValue1 old v), cur⟩
          | Option.none => .ok ⟨st.pool ++ [(round_key, v)], cur⟩
        | Option.none => .error "Invalid round number format in key"
      | _ => .error "Invalid round number format in key"
    else .error "Statement keys must be in format round X"

/-! ## SpecialistDoctor response parsing (MDTeamGPT_2_update/agents/specialist.py)

The two regex searches of _parse_section for the choice section are
reimplemented as leftmost-match scanners over the character list.  Both
patterns begin with the literal Choice: followed by greedy whitespace, so no
backtracking is needed except in the tail of the content pattern, where the
greedy whitespace run can hand characters back to the final non-newline
group; ssNonNl implements exactly that. -/

/-- Characters of the literal that both choice patterns start with. -/
def choiceLit : List Char := ['C', 'h', 'o', 'i', 'c', 'e', ':']

/-- Consume an exact literal. -/
def dropLit (lit l : List Char) : Option (List Char) :=
  if lit.isPrefixOf l then some (l.drop lit.length) else Option.none

/-- Consume one expected character. -/
def expectChar (c : Char) : List Char → Option (List Char)
  | [] => Option.none
  | d :: rest => if d = c then some rest else Option.none

/-- Consume one character of the regex class A-Z. -/
def takeUpper : List Char → Option (Char × List Char)
  | [] => Option.none
  | c :: rest => if 'A' ≤ c ∧ c ≤ 'Z' then some (c, rest) else Option.none

/-- Captured group of the regex tail backslash-s* followed by one-or-more
non-newline characters, with the greedy whitespace run backtracking when the
rest of the input would leave the capture empty. -/
def ssNonNl : List Char → Option (List Char)
  | [] => Option.none
  | c :: cs =>
    if pyIsSpace c then
      match ssNonNl cs with
      | some r => some r
      | Option.none =>
        if c = '\n' then Option.none
        else some ((c :: cs).takeWhile (· ≠ '\n'))
    else some ((c :: cs).takeWhile (· ≠ '\n'))

/-- Match the strict choice pattern at the head of the input: Choice:
whitespace, then a braced uppercase letter, a colon, whitespace and a braced
nonempty brace-free value.  Returns the letter, the inner whitespace run and
the value characters of the captured group. -/
def matchStrictAt (l : List Char) : Option (Char × List Char × List Char) :=
  (dropLit choiceLit l).bind fun l1 =>
  (expectChar lcb (l1.dropWhile pyIsSpace)).bind fun l3 =>
  (takeUpper l3).bind fun Ll4 =>
  (expectChar rcb Ll4.2).bind fun l5 =>
  (expectChar ':' l5).bind fun l6 =>
  (expectChar lcb (l6.dropWhile pyIsSpace)).bind fun l8 =>
  if (l8.takeWhile (· ≠ rcb)).isEmpty then Option.none
  else
    (expectChar rcb (l8.dropWhile (· ≠ rcb))).bind fun _ =>
    some (Ll4.1, l6.takeWhile pyIsSpace, l8.takeWhile (· ≠ rcb))

/-- Match the fallback content pattern at the head of the input: Choice:
whitespace, an uncurly uppercase letter, a colon, then the backtracking
whitespace/non-newline tail.  Returns the letter and the raw captured
value. -/
def matchContentAt (l : List Char) : Option (Char × List Char) :=
  (dropLit choiceLit l).bind fun l1 =>
  (takeUpper (l1.dropWhile pyIsSpace)).bind fun Ll3 =>
  (expectChar ':' Ll3.2).bind fun l4 =>
  (ssNonNl l4).bind fun med =>
  some (Ll3.1, med)

/-- Leftmost occurrence of the strict pattern (re.search semantics). -/
def searchStrict : List Char → Option (Char × List Char × List Char)
  | [] => Option.none
  | c :: rest =>
    match matchStrictAt (c :: rest) with
    | some r => some r
    | Option.none => searchStrict rest

/-- Leftmost occurrence of the content pattern (re.search semantics). -/
def searchContent : List Char → Option (Char × List Char)
  | [] => Option.none
  | c :: rest =>
    match matchContentAt (c :: rest) with
    | some r => some r
    | Option.none => searchContent rest

/-- SpecialistDoctor._parse_section for the Express Conclusion header: the
strict pattern wins and its captured group is stripped; otherwise a
content-pattern hit is reformatted into braces with the value stripped of
spaces and dots; otherwise the empty string. -/
def parseChoiceSection (text : String) : String :=
  match searchStrict text.data with
  | some (L, ws, v) =>
    pyStrip (String.mk (lcb :: L :: rcb :: ':' :: ws ++ lcb :: v ++ [rcb]))
  | Option.none =>
    match searchContent text.data with
    | some (L, med) =>
      String.mk (lcb :: L :: rcb :: ':' :: ' ' :: lcb ::
        stripCharsList [' ', '.'] med ++ [rcb])
    | Option.none => ""

/-! ## Retry loop (SpecialistDoctor._get_llm_response_safe) -/

/-- Validity test of a raw LLM response in the retry loop: the source checks
response and len(response) > 20. -/
def validResp (r : String) : Bool := (!(r == "")) && decide (20 < r.length)

/-- The retry loop, instrumented with the list of prompts passed to call_llm
in order.  The LLM is the oracle call, mapping the attempt index to a
returned string (ok) or a raised exception (error); a falsy or short
response and a raised exception both fall through to the next attempt, and
an exhausted budget is the final raise ValueError. -/
def retryTrace (call : Nat → Except Unit String) (prompt : String) :
    Nat → Nat → List String × Except Unit String
  | _, 0 => ([], .error ())
  | attempt, fuel + 1 =>
    match call attempt with
    | .ok r =>
      if validResp r then ([prompt], .ok r)
      else
        let res := retryTrace call prompt (attempt + 1) fuel
        (prompt :: res.1, res.2)
    | .error _ =>
      let res := retryTrace call prompt (attempt + 1) fuel
      (prompt :: res.1, res.2)

/-- SpecialistDoctor._get_llm_response_safe with its default max_retries of
3: attempts start at 0 with a budget of 3. -/
def get_llm_response_safe (call : Nat → Except Unit String) (prompt : String) :
    List String × Except Unit String :=
  retryTrace call prompt 0 3

/-- Choice field that perform_task hands to the orchestrator: the parsed
choice of a validated response, or the _create_error_response sentinel when
the retry loop exhausted (perform_task catches the ValueError itself). -/
def performTaskChoice (call : Nat → Except Unit String) (prompt : String) :
    String :=
  match (get_llm_response_safe call prompt).2 with
  | .ok r => parseChoiceSection r
  | .error _ => "Error: Could not get choice"

/-! ## Consensus check (run_consultation of MDTeamGPT_2_update/main.py and
of the top-level main.py) -/

/-- The invalid_choices set of MDTeamGPT_2_update/main.py. -/
def invalidChoices : List String :=
  ["", "Unable to parse choice", "No valid choice format found", "Error:",
   "Unable to generate"]

/-- extract_key of the consensus check: the part of a key: value string
before the first colon-space, stripped of spaces and braces; None when no
colon-space occurs. -/
def extract_key (choice_str : String) : Option String :=
  if pyIn ": " choice_str then
    some (stripChars [' ', lcb, rcb] (splitFirst ": " choice_str).1)
  else Option.none

/-- Value part used by the similarity tier: the part after the first
colon-space, stripped of spaces and braces.  The tier only evaluates it
under the all-keys-match guard, which guarantees the colon-space exists, so
the impossible missing case is mapped to the empty string. -/
def valueOf (choice : String) : String :=
  stripChars [' ', lcb, rcb] (((splitFirst ": " choice).2).getD "")

/-- All unordered pairs i less than j, in the double-loop order of the
source. -/
def pairsOf {α : Type} : List α → List (α × α)
  | [] => []
  | x :: xs => xs.map (fun y => (x, y)) ++ pairsOf xs

/-- Arithmetic mean of the pairwise similarity scores.  The similarity
function stands for difflib.SequenceMatcher.ratio, an external library
routine, and is a parameter of the embedding; scores are exact rationals. -/
def avgSim (sim : String → String → ℚ) (values : List String) : ℚ :=
  ((pairsOf values).map (fun p => sim p.1 p.2)).sum /
    (((pairsOf values).length : ℚ))

/-- Python max(l, key=f): the first element attaining the maximal key, None
modelling the raise on an empty iterable. -/
def pyMaxBy {α : Type} (f : α → Nat) : List α → Option α
  | [] => Option.none
  | x :: xs => some (xs.foldl (fun b y => if f b < f y then y else b) x)

/-- First-seen deduplication, used to reason about the possible iteration
orders of a Python set built from a list. -/
def dedupFirstSeen (l : List String) : List String :=
  l.foldl (fun acc c => if c ∈ acc then acc else acc ++ [c]) []

/-- Similarity tier of the MDTeamGPT_2_update consensus check: when every
extracted key is identical and non-None, compare the values pairwise and, if
the mean similarity exceeds 0.95, answer the most common exact choice via
max over set(all_choices) with count as the key.  Python leaves a set's
iteration order unspecified, so that order is the parameter order; a
faithful instantiation is any enumeration of the distinct choices. -/
def simTierResult (sim : String → String → ℚ) (order : List String)
    (all_choices : List String) : Option String :=
  match all_choices.map extract_key with
  | [] => Option.none
  | k :: rest =>
    if k ≠ Option.none ∧ ∀ x ∈ rest, x = k then
      if avgSim sim (all_choices.map valueOf) > 0.95 then
        pyMaxBy (fun c => all_choices.count c) order
      else Option.none
    else Option.none

/-- Vote tally of the final-round majority vote: non-empty choices are
counted into an insertion-ordered dict. -/
def choiceCounts (l : List String) : List (String × Nat) :=
  l.foldl (fun counts choice =>
    if choice = "" then counts
    else if counts.any (fun kv => kv.1 = choice) then
      counts.map (fun kv => if kv.1 = choice then (kv.1, kv.2 + 1) else kv)
    else counts ++ [(choice, 1)]) []

/-- Final-round majority vote: the first-inserted choice with the highest
count, or the no-valid-choices sentinel when nothing was tallied. -/
def majorityVoteStr (all_choices : List String) : String :=
  match pyMaxBy (fun kv => kv.2) (choiceCounts all_choices) with
  | some kv => kv.1
  | Option.none => "No valid choices provided by specialists"

/-- One round of the consensus check of MDTeamGPT_2_update/main.py (lines
289-368): strip the choices; any invalid choice skips the whole check
(continue); otherwise exact match, then the similarity tier, then the
majority vote when this is the final round.  Returns the final_opinion
assigned by the round, none when the loop goes on (or, on the final round
with an invalid choice present, ends with final_opinion unset). -/
def roundOutcomeV2 (sim : String → String → ℚ) (order : List String)
    (opinions : List String) (isFinal : Bool) : Option String :=
  match opinions.map pyStrip with
  | [] => Option.none
  | first :: rest =>
    if (first :: rest).any (fun c => decide (c ∈ invalidChoices)) then
      Option.none
    else if ∀ x ∈ rest, x = first then
      if first ≠ "" then some first
      else if isFinal then some (majorityVoteStr (first :: rest))
      else Option.none
    else
      match simTierResult sim order (first :: rest) with
      | some w => some w
      | Option.none =>
        if isFinal then some (majorityVoteStr (first :: rest)) else Option.none

/-- One round of the consensus check of the top-level main.py (lines
338-373): exact match over the stripped choices with no invalid-choice
exclusion, then the majority vote on the final round. -/
def checkRoundV1 (opinions : List String) (isFinal : Bool) : Option String :=
  match opinions.map pyStrip with
  | [] => Option.none
  | first :: rest =>
    if ∀ x ∈ rest, x = first then some first
    else if isFinal then some (majorityVoteStr (first :: rest))
    else Option.none

/-- The round loop of Step 3 of MDTeamGPT_2_update run_consultation:
final_opinion starts unset, each round may assign it and break, and the
majority vote is only reachable on round max_rounds.  The per-round Choice
fields are the oracle choicesPerRound. -/
def consultLoopV2 (sim : String → String → ℚ) (order : List String)
    (choicesPerRound : Nat → List String) (max_rounds : Nat) : Option String :=
  (List.range max_rounds).foldl (fun acc i =>
    match acc with
    | some w => some w
    | Option.none =>
      roundOutcomeV2 sim order (choicesPerRound (i + 1)) (i + 1 == max_rounds))
    Option.none

/-! ## Prompt construction (SpecialistDoctor._build_prompt) and the
specialist loop of a round -/

/-- One lead-physician analysis item handed to _build_prompt, a dict in the
source; Agent_Name is optional because the source reads it with a
default. -/
structure LeadAnalysis where
  Agent_Name : Option String
  consistency : List String
  conflict : List String
  independence : List String
  integration : List String

/-- One retrieved similar case.  Retrieval is TF-IDF over external
knowledge bases and the similarity is a float rendered with :.2f, so the
record carries the already-rendered text fields. -/
structure SimilarCase where
  question : String
  correct_answer : String
  source : String
  simFmt : String

/-- The semicolon join of a field list, with the Python or-None fallback
for an empty join. -/
def joinOrNone (xs : List String) : String :=
  let s := String.intercalate "; " xs
  if s = "" then "None" else s

/-- Lines contributed by one history item. -/
def historyLines (item : LeadAnalysis) : List String :=
  let agent_name := item.Agent_Name.getD "Lead Physician"
  let consistency_str := joinOrNone item.consistency
  let conflict_str := joinOrNone item.conflict
  let independence_str := joinOrNone item.independence
  let integration_str := joinOrNone item.integration
  [s!"=== {agent_name}\x27s Analysis ===",
   s!"Consistent Points: {consistency_str}",
   s!"Conflicting Points: {conflict_str}",
   s!"Independent Observations: {independence_str}",
   s!"Integrated Conclusion: {integration_str}"]

/-- Lines contributed by one enumerated similar case. -/
def similarCaseLines (ic : Nat × SimilarCase) : List String :=
  let i1 := ic.1 + 1
  let src := ic.2.source
  let q := ic.2.question
  let ca := ic.2.correct_answer
  let simf := ic.2.simFmt
  [s!"=== Case {i1} [{src}] ===",
   s!"Question: {q}",
   s!"Correct Answer: {ca}",
   s!"Similarity Score: {simf}"]

/-- SpecialistDoctor._build_prompt of MDTeamGPT_2_update: base lines, then
for rounds after the first the lead-physician history block and the
similar-cases block (retrieve stands for the TF-IDF search over the
knowledge bases), then the round-specific analysis structure and the fixed
response requirements, joined with newlines. -/
def buildPrompt (retrieve : String → List SimilarCase)
    (role specialty question options : String) (round_num : Nat)
    (history : List LeadAnalysis) : String :=
  let base_part := [
    s!"ROLE: You are {role}, a specialist in {specialty}",
    s!"TASK: Analyze this medical case and select the best option (Round {round_num}), if this is not 1st round, cosnidering the differnt answer from other specialists, and the similar case provided,re-consider your answer.",
    s!"Medical QUESTION:{question}",
    s!"Options:{options}"]
  let history_part :=
    if round_num > 1 then
      if history.isEmpty then ["No previous round analysis available"]
      else
        "\nLEAD PHYSICIAN ANALYSIS FROM PREVIOUS ROUNDS:" ::
          history.flatMap historyLines
    else []
  let similarcase_part :=
    if round_num > 1 then
      let similar_cases := retrieve question
      if similar_cases.isEmpty then ["NO Similarity Case\x7d"]
      else "\nSIMILAR CASES:" :: similar_cases.enum.flatMap similarCaseLines
    else []
  let process_part :=
    s!"\nROUND {round_num} ANALYSIS STRUCTURE:" ::
    (if round_num = 1 then [
      "1. Patient Condition Analysis: [Carefully read the patient’s description of symptoms, combining their signs, clinical examination, and pregnancy status for a comprehensive analysis]",
      "2. Treatment Option Evaluation: [Based on your professional knowledge, analyze all available treatment options, paying particular attention to drug safety for both the pregnant woman and the fetus]",
      "3. Select Optimal Treatment Plan: [Determine the most appropriate treatment for the patient and explain your decision]",
      "4. Express Conclusion: Choice: \x7bOption ID\x7d: \x7bOption Content\x7d ",
      "Ouput Example: ",
      "1. Patient Condition Analysis: ........",
      "2. Treatment Option Evaluation: ........",
      "3. Select Optimal Treatment Plan: ........",
      "4. Express Conclusion: Choice: \x7bE\x7d: \x7bNitrofurantoin\x7d "]
    else
      let rm1 := round_num - 1
      ["1. Patient Condition Analysis: [Carefully read the patient’s description of symptoms, combining their signs, clinical examination, and pregnancy status for a comprehensive analysis]",
      "2. Treatment Option Evaluation: [Based on your professional knowledge, analyze all available treatment options, paying particular attention to drug safety for both the pregnant woman and the fetus]",
      s!"3. Review Round {rm1} Feedback: [re-consider your answer according to prior discussion]",
      "4. Select Optimal Treatment Plan: [Determine the most appropriate treatment for the patient and explain your decision]",
      "5. Express Conclusion: Choice: \x7bOption ID\x7d: \x7bOption Content\x7d",
      "Output Example:",
      "1. Patient Condition Analysis: ........",
      "2. Treatment Option Evaluation: ........",
      "3. Review Previous Feedback: ........",
      "4. Select Optimal Treatment Plan: ........",
      "5. Express Conclusion: Choice: \x7bE\x7d: \x7bNitrofurantoin\x7d "])
  let format_part := [
    "\nRESPONSE REQUIREMENTS:",
    "- Must select exactly one option",
    "- Must follow the specified analysis structure",
    "- Must give answers in text without bullets ",
    "- Maintain spaces after numbers (1. ) and colons (: )",
    "- Use less then 3 sentences to show answer"]
  String.intercalate "\n"
    (base_part ++ history_part ++ similarcase_part ++ process_part ++
      format_part)

/-- Role string of SpecialistDoctor.__init__: the capitalized specialty
followed by Specialist. -/
def specialistRole (specialty : String) : String :=
  pyCapitalize specialty ++ " Specialist"

/-- Result of the specialist loop of one round: the collected
(Agent_Name, Choice) opinions and the prompts issued, in speaking order. -/
structure RoundRun where
  opinions : List (String × String)
  prompts : List String

/-- The specialist loop of one round of MDTeamGPT_2_update run_consultation:
the lead-physician history for the round is fixed before the loop, each
specialist builds a prompt from it, runs the retry loop against its own
response oracle (respond specialty prompt attempt) and contributes one
opinion; a specialist whose retries exhaust contributes the error sentinel
and the loop continues.  Earlier opinions of the same round are not passed
anywhere. -/
def collectRoundV2 (retrieve : String → List SimilarCase)
    (respond : String → String → Nat → Except Unit String)
    (specialists : List String) (question options : String) (round_num : Nat)
    (history : List LeadAnalysis) : RoundRun :=
  specialists.foldl (fun acc spec =>
    let role := specialistRole spec
    if question = "" ∨ options = "" then
      ⟨acc.opinions ++ [(role, "Error: Could not get choice")], acc.prompts⟩
    else
      let prompt := buildPrompt retrieve role spec question options round_num
        history
      let choice := performTaskChoice (respond spec prompt) prompt
      ⟨acc.opinions ++ [(role, choice)], acc.prompts ++ [prompt]⟩)
    ⟨[], []⟩

/-- Round data appended to the historical pool by the orchestrator after a
round: one dict under the round key holding the specialist opinions. -/
def roundDataV2 (round_num : Nat) (ops : List PyVal) :
    List (String × PyVal) :=
  [(s!"round {round_num}", PyVal.dict [("specialist_opinions", PyVal.list ops)])]

/-- One stored specialist opinion record. -/
def opinionVal (name reasoning choice : String) : PyVal :=
  PyVal.dict [("Agent_Name", PyVal.str name), ("Reasoning", PyVal.str reasoning),
    ("Choice", PyVal.str choice)]

/-! ## Spec-side comparison definitions -/

/-- Digit run with an optional leading minus sign, the rendering of an
integer N in the round-key claim. -/
def intLiteral (cs : List Char) : Bool :=
  match cs with
  | '-' :: rest => rest ≠ [] && rest.all Char.isDigit
  | _ => cs ≠ [] && cs.all Char.isDigit

/-- Modelled from the claim wording: a key of the form round N for an
integer N, that is, the literal round-space followed exactly by an integer
numeral and nothing else.  Used only to compare the claimed rejection rule
with the rejection the code performs. -/
def claimRoundKeyForm (k : String) : Bool :=
  pyStartswith "round " k && intLiteral (k.data.drop 6)

/-- Modelled from the claim wording: the most frequent exact choice string,
ties broken by first-seen order among the opinions.  Used only to compare
the claimed similarity-tier tie-break with the max-over-set the code
performs. -/
def claimFirstSeenWinner (cs : List String) : Option String :=
  pyMaxBy (fun c => cs.count c) (dedupFirstSeen cs)

/-! ## Helper lemmas -/

/-- The foldl kernel of pyMaxBy returns the first element of the seeded
list attaining the maximal key. -/
theorem foldl_pymax_spec {α : Type} (f : α → Nat) :
    ∀ (xs : List α) (b : α),
      ∃ pre post,
        b :: xs = pre ++ (xs.foldl (fun b y => if f b < f y then y else b) b)
            :: post ∧
        (∀ y ∈ pre,
          f y < f (xs.foldl (fun b y => if f b < f y then y else b) b)) ∧
        (∀ y ∈ b :: xs,
          f y ≤ f (xs.foldl (fun b y => if f b < f y then y else b) b)) := by
  intro xs
  induction xs with
  | nil =>
    intro b
    exact ⟨[], [], rfl, by simp, by simp⟩
  | cons y ys ih =>
    intro b
    by_cases h : f b < f y
    · obtain ⟨pre, post, heq, hpre, hle⟩ := ih y
      refine ⟨b :: pre, post, ?_, ?_, ?_⟩
      · simpa [List.foldl, if_pos h] using congrArg (b :: ·) heq
      · intro z hz
        rcases List.mem_cons.mp hz with hz | hz
        · subst hz
          have hy : f y ≤ f (ys.foldl (fun b y => if f b < f y then y else b) y) :=
            hle y (List.mem_cons_self _ _)
          simpa [List.foldl, if_pos h] using lt_of_lt_of_le h hy
        · simpa [List.foldl, if_pos h] using hpre z hz
      · intro z hz
        rcases List.mem_cons.mp hz with hz | hz
        · subst hz
          have hy : f y ≤ f (ys.foldl (fun b y => if f b < f y then y else b) y) :=
            hle y (List.mem_cons_self _ _)
          simpa [List.foldl, if_pos h] using le_of_lt (lt_of_lt_of_le h hy)
        · simpa [List.foldl, if_pos h] using hle z hz
    · have hyb : f y ≤ f b := le_of_not_lt h
      obtain ⟨pre, post, heq, hpre, hle⟩ := ih b
      cases pre with
      | nil =>
        have heq2 : b :: ys =
            (ys.foldl (fun b y => if f b < f y then y else b) b) :: post := by
          simpa using heq
        have hb : ys.foldl (fun b y => if f b < f y then y else b) b = b :=
          ((List.cons.inj heq2).1).symm
        refine ⟨[], y :: ys, ?_, by simp, ?_⟩
        · simp [List.foldl, if_neg h, hb]
        · intro z hz
          rcases List.mem_cons.mp hz with hz | hz
          · subst hz
            simp [List.foldl, if_neg h, hb]
          · rcases List.mem_cons.mp hz with hz | hz
            · subst hz
              simpa [List.foldl, if_neg h, hb] using hyb
            · simpa [List.foldl, if_neg h] using hle z (List.mem_cons_of_mem _ hz)
      | cons p pre2 =>
        have heq2 : b :: ys = p :: (pre2 ++
            (ys.foldl (fun b y => if f b < f y then y else b) b) :: post) := by
          simpa using heq
        have hpb : p = b := ((List.cons.inj heq2).1).symm
        rw [hpb] at hpre
        have hys : ys = pre2 ++
            (ys.foldl (fun b y => if f b < f y then y else b) b) :: post :=
          (List.cons.inj heq2).2
        refine ⟨b :: y :: pre2, post, ?_, ?_, ?_⟩
        · simp [List.foldl, if_neg h]
          exact hys
        · intro z hz
          have hpmem : f b < f (ys.foldl (fun b y => if f b < f y then y else b) b) :=
            hpre b (List.mem_cons_self _ _)
          rcases List.mem_cons.mp hz with hz | hz
          · subst hz
            simpa [List.foldl, if_neg h] using hpmem
          · rcases List.mem_cons.mp hz with hz | hz
            · subst hz
              simpa [List.foldl, if_neg h] using lt_of_le_of_lt hyb hpmem
            · simpa [List.foldl, if_neg h] using hpre z (List.mem_cons_of_mem _ hz)
        · intro z hz
          rcases List.mem_cons.mp hz with hz | hz
          · subst hz
            simpa [List.foldl, if_neg h] using hle z (List.mem_cons_self _ _)
          · rcases List.mem_cons.mp hz with hz | hz
            · subst hz
              have : f b ≤ f (ys.foldl (fun b y => if f b < f y then y else b) b) :=
                hle b (List.mem_cons_self _ _)
              simpa [List.foldl, if_neg h] using le_trans hyb this
            · simpa [List.foldl, if_neg h] using hle z (List.mem_cons_of_mem _ hz)

/-- pyMaxBy is the first element attaining the maximal key: it splits the
list into a strictly-smaller prefix, the winner, and a bounded tail. -/
theorem pyMaxBy_spec {α : Type} (f : α → Nat) (l : List α) (m : α)
    (h : pyMaxBy f l = some m) :
    ∃ pre post, l = pre ++ m :: post ∧ (∀ y ∈ pre, f y < f m) ∧
      ∀ y ∈ l, f y ≤ f m := by
  cases l with
  | nil => cases h
  | cons x xs =>
    obtain ⟨pre, post, heq, hpre, hle⟩ := foldl_pymax_spec f xs x
    have hm : xs.foldl (fun b y => if f b < f y then y else b) x = m := by
      simpa [pyMaxBy] using h
    rw [hm] at heq hpre hle
    exact ⟨pre, post, heq, hpre, hle⟩

/-- Membership in the first-seen dedup fold. -/
theorem mem_dedup_foldl (x : String) :
    ∀ (l acc : List String),
      (x ∈ l.foldl (fun acc c => if c ∈ acc then acc else acc ++ [c]) acc) ↔
        x ∈ acc ∨ x ∈ l := by
  intro l
  induction l with
  | nil => intro acc; simp
  | cons c cs ih =>
    intro acc
    by_cases hc : c ∈ acc
    · rw [List.foldl_cons, if_pos hc, ih]
      constructor
      · rintro (h | h)
        · exact Or.inl h
        · exact Or.inr (List.mem_cons_of_mem _ h)
      · rintro (h | h)
        · exact Or.inl h
        · rcases List.mem_cons.mp h with h | h
          · subst h; exact Or.inl hc
          · exact Or.inr h
    · rw [List.foldl_cons, if_neg hc, ih]
      constructor
      · rintro (h | h)
        · rcases List.mem_append.mp h with h | h
          · exact Or.inl h
          · simp at h; subst h; exact Or.inr (List.mem_cons_self _ _)
        · exact Or.inr (List.mem_cons_of_mem _ h)
      · rintro (h | h)
        · exact Or.inl (List.mem_append.mpr (Or.inl h))
        · rcases List.mem_cons.mp h with h | h
          · subst h; exact Or.inl (by simp)
          · exact Or.inr h

/-- An element is in the first-seen dedup exactly when it is in the
list. -/
theorem mem_dedupFirstSeen (x : String) (l : List String) :
    x ∈ dedupFirstSeen l ↔ x ∈ l := by
  unfold dedupFirstSeen
  rw [mem_dedup_foldl]
  simp

/-- First-seen dedup of a nonempty list is nonempty. -/
theorem dedupFirstSeen_ne_nil (l : List String) (h : l ≠ []) :
    dedupFirstSeen l ≠ [] := by
  cases l with
  | nil => exact absurd rfl h
  | cons c cs =>
    intro hcontra
    have : c ∈ dedupFirstSeen (c :: cs) :=
      (mem_dedupFirstSeen c _).mpr (List.mem_cons_self _ _)
    rw [hcontra] at this
    cases this

/-- The vote tally is the first-seen dedup of the non-empty choices, each
paired with its multiplicity: counting into an insertion-ordered dict keeps
first-arrival order and exact counts. -/
theorem choiceCounts_eq (l : List String) :
    choiceCounts l = (dedupFirstSeen (l.filter (fun c => !(c == "")))).map
      (fun c => (c, (l.filter (fun c => !(c == ""))).count c)) := by
  induction l using List.reverseRecOn with
  | nil => rfl
  | append_singleton l c ih =>
    have hcc : choiceCounts (l ++ [c]) =
        (if c = "" then choiceCounts l
         else if (choiceCounts l).any (fun kv => kv.1 = c) then
           (choiceCounts l).map
             (fun kv => if kv.1 = c then (kv.1, kv.2 + 1) else kv)
         else choiceCounts l ++ [(c, 1)]) := by
      simp [choiceCounts, List.foldl_append]
    by_cases hc : c = ""
    · subst hc
      rw [hcc, if_pos rfl, ih]
      simp
    · have hfil : (l ++ [c]).filter (fun c => !(c == "")) =
          l.filter (fun c => !(c == "")) ++ [c] := by
        simp [List.filter_append, hc]
      set F := l.filter (fun c => !(c == "")) with hF
      have hded : dedupFirstSeen (F ++ [c]) =
          if c ∈ dedupFirstSeen F then dedupFirstSeen F
          else dedupFirstSeen F ++ [c] := by
        simp [dedupFirstSeen, List.foldl_append]
      have hcnt : ∀ x : String, (F ++ [c]).count x =
          F.count x + if x = c then 1 else 0 := by
        intro x
        by_cases hxc : x = c
        · subst hxc
          simp [List.count_append]
        · simp [List.count_append, List.count_singleton', hxc, Ne.symm hxc]
      rw [hcc, hfil, hded]
      by_cases hmem : c ∈ dedupFirstSeen F
      · have hany : (choiceCounts l).any (fun kv => kv.1 = c) = true := by
          rw [ih]
          apply List.any_eq_true.mpr
          exact ⟨(c, F.count c), List.mem_map_of_mem _ hmem, by simp⟩
        rw [if_neg hc, if_pos hany, if_pos hmem, ih, List.map_map]
        apply List.map_congr_left
        intro x _
        by_cases hxc : x = c
        · subst hxc
          simp [Function.comp, hcnt]
        · simp [Function.comp, hxc, hcnt]
      · have hany : (choiceCounts l).any (fun kv => kv.1 = c) = false := by
          rw [ih]
          apply List.any_eq_false.mpr
          intro kv hkv
          obtain ⟨x, hx, hxe⟩ := List.mem_map.mp hkv
          subst hxe
          simp only [decide_eq_true_eq]
          exact fun hxc => hmem (hxc ▸ hx)
        have hc0 : F.count c = 0 := by
          rw [List.count_eq_zero]
          intro hcf
          exact hmem ((mem_dedupFirstSeen c F).mpr hcf)
        rw [if_neg hc, if_neg (by rw [hany]; simp), if_neg hmem, ih,
          List.map_append]
        have h1 : (dedupFirstSeen F).map (fun x => (x, (F ++ [c]).count x)) =
            (dedupFirstSeen F).map (fun x => (x, F.count x)) := by
          apply List.map_congr_left
          intro x hx
          have hxc : ¬ x = c := fun hxe => hmem (hxe ▸ hx)
          simp [hcnt, hxc]
        rw [h1]
        have h2 : ([c]).map (fun x => (x, (F ++ [c]).count x)) = [(c, 1)] := by
          simp [hcnt, hc0]
        rw [h2]

/-- With nonempty question and options, the specialist loop of a round maps
each specialist independently to its opinion and its prompt, both computed
from the pre-round data only. -/
theorem collectRoundV2_eq (retrieve : String → List SimilarCase)
    (respond : String → String → Nat → Except Unit String)
    (specialists : List String) (question options : String) (round_num : Nat)
    (history : List LeadAnalysis) (hq : ¬ question = "")
    (ho : ¬ options = "") :
    collectRoundV2 retrieve respond specialists question options round_num
        history =
      ⟨specialists.map (fun s => (specialistRole s,
          performTaskChoice
            (respond s (buildPrompt retrieve (specialistRole s) s question
              options round_num history))
            (buildPrompt retrieve (specialistRole s) s question options
              round_num history))),
       specialists.map (fun s => buildPrompt retrieve (specialistRole s) s
          question options round_num history)⟩ := by
  have hgo : ∀ (specs : List String) (acc : RoundRun),
      specs.foldl (fun acc spec =>
        let role := specialistRole spec
        if question = "" ∨ options = "" then
          ⟨acc.opinions ++ [(role, "Error: Could not get choice")], acc.prompts⟩
        else
          let prompt := buildPrompt retrieve role spec question options
            round_num history
          let choice := performTaskChoice (respond spec prompt) prompt
          ⟨acc.opinions ++ [(role, choice)], acc.prompts ++ [prompt]⟩) acc =
      ⟨acc.opinions ++ specs.map (fun s => (specialistRole s,
          performTaskChoice
            (respond s (buildPrompt retrieve (specialistRole s) s question
              options round_num history))
            (buildPrompt retrieve (specialistRole s) s question options
              round_num history))),
       acc.prompts ++ specs.map (fun s => buildPrompt retrieve
          (specialistRole s) s question options round_num history)⟩ := by
    intro specs
    induction specs with
    | nil => intro acc; simp
    | cons s ss ih =>
      intro acc
      rw [List.foldl_cons, ih]
      have hcond : ¬ (question = "" ∨ options = "") := by
        rintro (h | h)
        · exact hq h
        · exact ho h
      simp only [if_neg hcond]
      simp
  unfold collectRoundV2
  rw [hgo]
  simp

/-- C8: for a fixed response that never validates, the retry loop of
_get_llm_response_safe issues exactly max_retries calls (the three recorded
prompts), ends in the exhausted-retries ValueError, perform_task turns that
failure into the per-participant sentinel opinion, and the round loop still
collects one opinion per specialist instead of aborting the case. -/
theorem c8_retry_termination (r : String) (prompt : String)
    (hr : ¬ validResp r = true) :
    (get_llm_response_safe (fun _ => Except.ok r) prompt).1.length = 3 ∧
    (get_llm_response_safe (fun _ => Except.ok r) prompt).2 =
      Except.error () ∧
    performTaskChoice (fun _ => Except.ok r) prompt =
      "Error: Could not get choice" ∧
    ∀ (retrieve : String → List SimilarCase) (specialists : List String)
      (question options : String) (round_num : Nat)
      (history : List LeadAnalysis), ¬ question = "" → ¬ options = "" →
      (collectRoundV2 retrieve (fun _ _ => fun _ => Except.ok r) specialists
          question options round_num history).opinions =
        specialists.map (fun s => (specialistRole s,
          "Error: Could not get choice")) := by
  have htrace : ∀ (p : String) (attempt fuel : Nat),
      retryTrace (fun _ => Except.ok r) p attempt fuel =
        (List.replicate fuel p, Except.error ()) := by
    intro p attempt fuel
    induction fuel generalizing attempt with
    | zero => rfl
    | succ n ih =>
      simp [retryTrace, hr, ih (attempt + 1), List.replicate_succ]
  have hchoice : ∀ p : String, performTaskChoice (fun _ => Except.ok r) p =
      "Error: Could not get choice" := by
    intro p
    unfold performTaskChoice get_llm_response_safe
    rw [htrace p 0 3]
  refine ⟨?_, ?_, hchoice prompt, ?_⟩
  · show (retryTrace (fun _ => Except.ok r) prompt 0 3).1.length = 3
    rw [htrace prompt 0 3]
    rfl
  · show (retryTrace (fun _ => Except.ok r) prompt 0 3).2 = Except.error ()
    rw [htrace prompt 0 3]
  · intro retrieve specialists question options round_num history hq ho
    rw [collectRoundV2_eq retrieve _ specialists question options round_num
      history hq ho]
    apply List.map_congr_left
    intro s _
    rw [hchoice]

/-- Witness for C8 at a concrete fixed invalid response. -/
theorem c8_witness :
    (get_llm_response_safe (fun _ => Except.ok "short") "P").1.length = 3 ∧
    performTaskChoice (fun _ => Except.ok "short") "P" =
      "Error: Could not get choice" :=
  ⟨(c8_retry_termination "short" "P" (by decide)).1,
   (c8_retry_termination "short" "P" (by decide)).2.2.1⟩

/-- C7 (amended): every attempt of _get_llm_response_safe issues the base
prompt unmodified to call_llm; there is no feedback block, so a failed
attempt is retried with exactly the same prompt. -/
theorem c7_same_prompt_every_attempt (call : Nat → Except Unit String)
    (prompt : String) (attempt fuel : Nat) :
    ∀ p ∈ (retryTrace call prompt attempt fuel).1, p = prompt := by
  induction fuel generalizing attempt with
  | zero => intro p hp; cases hp
  | succ n ih =>
    intro p hp
    rw [retryTrace] at hp
    cases hcall : call attempt with
    | ok r =>
      rw [hcall] at hp
      by_cases hv : validResp r = true
      · simp only [hv, if_true] at hp
        simpa using hp
      · simp only [hv, if_false] at hp
        rcases List.mem_cons.mp hp with h | h
        · exact h
        · exact ih (attempt + 1) p h
    | error e =>
      rw [hcall] at hp
      rcases List.mem_cons.mp hp with h | h
      · exact h
      · exact ih (attempt + 1) p h

/-- Witness for C7: the prompts of a failing run are all the base prompt. -/
theorem c7_witness :
    "BASE" ∈ (retryTrace (fun _ => Except.ok "short") "BASE" 0 3).1 ∧
    ∀ p ∈ (retryTrace (fun _ => Except.ok "short") "BASE" 0 3).1,
      p = "BASE" :=
  ⟨by decide,
   fun p hp =>
     c7_same_prompt_every_attempt (fun _ => Except.ok "short") "BASE" 0 3 p hp⟩

/-- C7 counterexample: after attempt 1 of a never-validating response
fails, attempt 2 (and attempt 3) is issued with exactly the unaugmented
base prompt, so the whole trace is three copies of the base prompt and no
attempt carries a feedback block: the base prompt concatenated with any
nonempty feedback block, such as a block naming the short-response
violation, differs from what is actually issued. -/
theorem c7_counterexample :
    (get_llm_response_safe (fun _ => Except.ok "short") "BASE").1 =
      ["BASE", "BASE", "BASE"] ∧
    (get_llm_response_safe (fun _ => Except.ok "short") "BASE").2 =
      Except.error () ∧
    ("BASE" ++ "\nPrevious attempt failed: Empty or short response" : String)
      ≠ "BASE" :=
  ⟨rfl, rfl, by decide⟩

/-- C3 (amended): in the MDTeamGPT_2_update consensus check, one choice that
is empty or a parse-failure sentinel forces a not-converged verdict for the
round, whatever the other choices and the round number; the top-level
main.py consensus check, however, has no sentinel exclusion, and a round
whose choices are all the same sentinel is reported as converged there. -/
theorem c3_sentinel_exclusion :
    (∀ (sim : String → String → ℚ) (order : List String)
        (opinions : List String) (isFinal : Bool),
        (∃ c ∈ opinions.map pyStrip, c ∈ invalidChoices) →
        roundOutcomeV2 sim order opinions isFinal = Option.none) ∧
    checkRoundV1 ["Unable to generate", "Unable to generate",
        "Unable to generate"] false = some "Unable to generate" := by
  constructor
  · rintro sim order ops isFinal ⟨c, hc, hinv⟩
    cases ops with
    | nil => simp at hc
    | cons o os =>
      have hany : ((o :: os).map pyStrip).any
          (fun c => decide (c ∈ invalidChoices)) = true :=
        List.any_eq_true.mpr ⟨c, hc, decide_eq_true hinv⟩
      rw [List.map_cons] at hany
      simp [roundOutcomeV2, hany]
  · rfl

/-- Witness for C3 at a concrete round: one sentinel among otherwise
agreeing choices forces not-converged, even on the final round. -/
theorem c3_witness :
    roundOutcomeV2 (fun _ _ => 0) []
      ["\x7bA\x7d: \x7bAspirin\x7d", "Unable to generate",
       "\x7bA\x7d: \x7bAspirin\x7d"] true = Option.none :=
  c3_sentinel_exclusion.1 (fun _ _ => 0) []
    ["\x7bA\x7d: \x7bAspirin\x7d", "Unable to generate",
     "\x7bA\x7d: \x7bAspirin\x7d"] true
    ⟨"Unable to generate", by decide, by decide⟩

/-- C3 counterexample: in the top-level main.py consensus check (also cited
by the claim), a non-final round whose three choices all equal the sentinel
Unable to generate is reported as converged with the sentinel as winner,
contradicting that such a round is never reported as converged. -/
theorem c3_counterexample :
    checkRoundV1 ["Unable to generate", "Unable to generate",
        "Unable to generate"] false = some "Unable to generate" ∧
    "Unable to generate" ∈ invalidChoices := by
  exact ⟨rfl, by decide⟩

/-- C5: final-round majority vote determinism: non-empty choices are tallied
as exact strings in first-arrival order, the winner is the first tallied
choice attaining the maximal count (so arrival order A, A, B, B elects A),
every non-empty choice has count at most the winner's, and the tally is the
first-seen dedup of the non-empty choices paired with exact multiplicities;
the vote is a pure function of the choice list, so rerunning it on the same
input yields the same winner. -/
theorem c5_majority_tie_break :
    majorityVoteStr ["A", "A", "B", "B"] = "A" ∧
    ∀ (l : List String) (w : String) (n : Nat),
      pyMaxBy (fun kv => kv.2) (choiceCounts l) = some (w, n) →
      w ≠ "" ∧ w ∈ l ∧ n = l.count w ∧
      (∀ c ∈ l, c ≠ "" → l.count c ≤ n) ∧
      ∃ pre post,
        choiceCounts l = pre ++ (w, n) :: post ∧
        (∀ kv ∈ pre, kv.2 < n) ∧
        choiceCounts l =
          (dedupFirstSeen (l.filter (fun c => !(c == "")))).map
            (fun c => (c, (l.filter (fun c => !(c == ""))).count c)) := by
  constructor
  · rfl
  · intro l w n h
    obtain ⟨pre, post, hsplit, hpre, hle⟩ :=
      pyMaxBy_spec (fun kv => kv.2) (choiceCounts l) (w, n) h
    have hbridge := choiceCounts_eq l
    have hwn : (w, n) ∈ choiceCounts l := by
      rw [hsplit]
      exact List.mem_append_right _ (List.mem_cons_self _ _)
    have hwn2 := hwn
    rw [hbridge] at hwn2
    obtain ⟨x, hxD, hxe⟩ := List.mem_map.mp hwn2
    cases hxe
    have hxF : w ∈ l.filter (fun c => !(c == "")) :=
      (mem_dedupFirstSeen w _).mp hxD
    have hxl : w ∈ l := (List.mem_filter.mp hxF).1
    have hxne : w ≠ "" := by
      have := (List.mem_filter.mp hxF).2
      simpa using this
    have hcount : (l.filter (fun c => !(c == ""))).count w = l.count w :=
      List.count_filter (by simpa using hxne)
    refine ⟨hxne, hxl, hcount, ?_, pre, post, hsplit, hpre, hbridge⟩
    intro c hc hcne
    have hcF : c ∈ l.filter (fun c => !(c == "")) :=
      List.mem_filter.mpr ⟨hc, by simpa using hcne⟩
    have hcD : c ∈ dedupFirstSeen (l.filter (fun c => !(c == ""))) :=
      (mem_dedupFirstSeen c _).mpr hcF
    have hcmem : (c, (l.filter (fun c => !(c == ""))).count c) ∈
        choiceCounts l := by
      rw [hbridge]
      exact List.mem_map_of_mem _ hcD
    have := hle _ hcmem
    have hccount : (l.filter (fun c => !(c == ""))).count c = l.count c :=
      List.count_filter (by simpa using hcne)
    calc l.count c = (l.filter (fun c => !(c == ""))).count c := hccount.symm
    _ ≤ (l.filter (fun c => !(c == ""))).count w := this

/-- Witness for C5 at the arrival order A, A, B, B of the claim. -/
theorem c5_witness :
    majorityVoteStr ["A", "A", "B", "B"] = "A" ∧
    "A" ∈ ["A", "A", "B", "B"] ∧ (2 : Nat) = List.count "A" ["A", "A", "B", "B"] :=
  ⟨c5_majority_tie_break.1,
   (c5_majority_tie_break.2 ["A", "A", "B", "B"] "A" 2 (by decide)).2.1,
   (c5_majority_tie_break.2 ["A", "A", "B", "B"] "A" 2 (by decide)).2.2.1⟩

/-- C2: at the failing input where every specialist response parses to no
choice (so every round's choices are empty strings), the deliberation loop
of MDTeamGPT_2_update ends after max_rounds with final_opinion never
assigned: the continue taken on the invalid choices skips the forced
majority vote of the final round, so the case reaches step 5 and 6 with
final_opinion None and crashes on None.lower, contradicting the claimed
always-produced final decision. -/
theorem c2_missing_final_decision :
    ∀ (sim : String → String → ℚ) (order : List String),
      consultLoopV2 sim order
        (fun _ => [performTaskChoice (fun _ => Except.ok
            "The patient presentation is ambiguous and no option can be selected.")
            "P",
          performTaskChoice (fun _ => Except.ok
            "The patient presentation is ambiguous and no option can be selected.")
            "P"]) 5 = Option.none := by
  intro sim order
  rfl

/-- List kind test of the source isinstance checks. -/
def isList : PyVal → Bool
  | .list _ => true
  | _ => false

/-- Dict kind test of the source isinstance checks. -/
def isDict : PyVal → Bool
  | .dict _ => true
  | _ => false

/-- An element returned by find? satisfies the predicate. -/
theorem find?_pred {α : Type} (p : α → Bool) :
    ∀ {l : List α} {a : α}, l.find? p = some a → p a = true := by
  intro l
  induction l with
  | nil => intro a h; cases h
  | cons x xs ih =>
    intro a h
    by_cases hp : p x = true
    · rw [List.find?_cons_of_pos _ hp] at h
      cases h
      exact hp
    · rw [List.find?_cons_of_neg _ hp] at h
      exact ih h

/-- Writing an existing key in place yields the new value. -/
theorem assocGet_poolSet (pool : List (String × PyVal)) (k : String)
    (x old : PyVal) (hget : assocGet pool k = some old) :
    assocGet (poolSet pool k x) k = some x := by
  have hfind : ∃ kv0, pool.find? (fun kv => kv.1 = k) = some kv0 := by
    unfold assocGet at hget
    cases hf : pool.find? (fun kv => kv.1 = k) with
    | none => rw [hf] at hget; cases hget
    | some kv0 => exact ⟨kv0, rfl⟩
  obtain ⟨kv0, hkv0⟩ := hfind
  have hany : pool.any (fun kv => kv.1 = k) = true := by
    apply List.any_eq_true.mpr
    exact ⟨kv0, List.mem_of_find?_eq_some hkv0, find?_pred (fun kv : String × PyVal => decide (kv.1 = k)) hkv0⟩
  unfold poolSet
  rw [if_pos hany]
  unfold assocGet
  rw [List.find?_map]
  have hpred : (fun kv => decide (kv.1 = k)) ∘
      (fun kv : String × PyVal => if kv.1 = k then (kv.1, x) else kv) =
      fun kv => decide (kv.1 = k) := by
    funext kv
    by_cases hk : kv.1 = k
    · simp [hk]
    · simp [hk]
  rw [hpred, hkv0]
  have hkey : kv0.1 = k := by simpa using find?_pred (fun kv : String × PyVal => decide (kv.1 = k)) hkv0
  simp [hkey]

/-- Filtering with a predicate that keeps every entry whose key is k does
not change the association lookup of k. -/
theorem assocGet_filter (b : List (String × PyVal)) (k : String)
    (G : String × PyVal → Bool) (hG : ∀ kv ∈ b, kv.1 = k → G kv = true) :
    assocGet (b.filter G) k = assocGet b k := by
  induction b with
  | nil => rfl
  | cons kv bs ih =>
    have ih2 := ih (fun kv2 h2 => hG kv2 (List.mem_cons_of_mem _ h2))
    by_cases hk : kv.1 = k
    · have hGkv : G kv = true := hG kv (List.mem_cons_self _ _) hk
      unfold assocGet
      rw [List.filter_cons, if_pos hGkv]
      rw [List.find?_cons_of_pos _ (by simpa using hk),
        List.find?_cons_of_pos _ (by simpa using hk)]
    · unfold assocGet at ih2 ⊢
      by_cases hGkv : G kv = true
      · rw [List.filter_cons, if_pos hGkv,
          List.find?_cons_of_neg _ (by simpa using hk),
          List.find?_cons_of_neg _ (by simpa using hk)]
        exact ih2
      · rw [List.filter_cons, if_neg hGkv,
          List.find?_cons_of_neg _ (by simpa using hk)]
        exact ih2

/-- In dict.update, the keys of the new dict win: a key present in the new
dict reads back its new value. -/
theorem dictUpdate_get_right (a b : List (String × PyVal)) (k : String)
    (h : (assocGet b k).isSome) : assocGet (dictUpdate a b) k = assocGet b k := by
  obtain ⟨bv, hbv⟩ := Option.isSome_iff_exists.mp h
  have hbfind : ∃ bkv, b.find? (fun kv => kv.1 = k) = some bkv ∧ bkv.2 = bv := by
    unfold assocGet at hbv
    cases hf : b.find? (fun kv => kv.1 = k) with
    | none => rw [hf] at hbv; cases hbv
    | some bkv =>
      rw [hf] at hbv
      exact ⟨bkv, rfl, by simpa using hbv⟩
  obtain ⟨bkv, hbkv, hbkv2⟩ := hbfind
  have hbkey : bkv.1 = k := by simpa using find?_pred (fun kv : String × PyVal => decide (kv.1 = k)) hbkv
  unfold dictUpdate assocGet
  rw [List.find?_append]
  by_cases hk : a.any (fun kv => kv.1 = k) = true
  · obtain ⟨akv, hamem, hapred⟩ := List.any_eq_true.mp hk
    have hakey : akv.1 = k := by simpa using hapred
    have hafind : ∃ akv0, a.find? (fun kv => kv.1 = k) = some akv0 := by
      cases hf : a.find? (fun kv => kv.1 = k) with
      | none =>
        rw [List.find?_eq_none] at hf
        exact absurd hapred (by simpa using hf akv hamem)
      | some akv0 => exact ⟨akv0, rfl⟩
    obtain ⟨akv0, hakv0⟩ := hafind
    have hakey0 : akv0.1 = k := by simpa using find?_pred (fun kv : String × PyVal => decide (kv.1 = k)) hakv0
    rw [List.find?_map]
    have hpred : (fun kv => decide (kv.1 = k)) ∘
        (fun kv : String × PyVal =>
          match b.find? (fun kv2 => kv2.1 = kv.1) with
          | some kv2 => (kv.1, kv2.2)
          | Option.none => kv) = fun kv => decide (kv.1 = k) := by
      funext kv
      cases hf : b.find? (fun kv2 => kv2.1 = kv.1) with
      | none => simp [hf]
      | some kv2 => simp [hf]
    rw [hpred, hakv0]
    have hred : Option.map (fun kv : String × PyVal =>
        match b.find? (fun kv2 => kv2.1 = kv.1) with
        | some kv2 => (kv.1, kv2.2)
        | Option.none => kv) (some akv0) = some (akv0.1, bkv.2) := by
      show some (match b.find? (fun kv2 => kv2.1 = akv0.1) with
        | some kv2 => (akv0.1, kv2.2)
        | Option.none => akv0) = some (akv0.1, bkv.2)
      rw [hakey0, hbkv]
    rw [hred, hbkv]
    rfl
  · have hnone : (a.map (fun kv =>
        match b.find? (fun kv2 => kv2.1 = kv.1) with
        | some kv2 => (kv.1, kv2.2)
        | Option.none => kv)).find? (fun kv => decide (kv.1 = k)) =
        Option.none := by
      rw [List.find?_eq_none]
      intro x hx
      obtain ⟨kv, hkv, hxe⟩ := List.mem_map.mp hx
      have hxkey : x.1 = kv.1 := by
        subst hxe
        cases hf : b.find? (fun kv2 => kv2.1 = kv.1) with
        | none => simp [hf]
        | some kv2 => simp [hf]
      simp only [decide_eq_true_eq, hxkey]
      intro hke
      exact hk (List.any_eq_true.mpr ⟨kv, hkv, by simpa using hke⟩)
    rw [hnone]
    have hfil : assocGet (b.filter
        (fun kv2 => !(a.any (fun kv => kv.1 = kv2.1)))) k = assocGet b k := by
      apply assocGet_filter
      intro kv hkv hkey
      have : ¬ a.any (fun kv0 => kv0.1 = kv.1) = true := by
        rw [hkey]
        exact hk
      simp [this]
    unfold assocGet at hfil
    rw [Option.none_or]
    exact hfil

/-- C6 (amended): add_statements merges an already-present key per value
kind in both pool implementations: list-list concatenates in order without
deduplication, dict-dict shallow-merges with the new value winning on key
conflicts; on a kind mismatch, MDTeamGPT_2_update overwrites with the new
value, while MDTeamGPT_1 instead stores the two-element list holding the old
and the new value. -/
theorem c6_merge_semantics :
    (∀ (pool : List (String × PyVal)) (k : String) (old v : PyVal),
      assocGet pool k = some old →
      assocGet (add_statements2 pool [(k, v)]) k = some (mergeValue2 old v)) ∧
    (∀ (st : Pool1) (k : String) (old v : PyVal) (a t : String)
        (ts : List String) (n : Int),
      pyStartswith "round " k = true → pySplit " " k = a :: t :: ts →
      pyInt t = some n → assocGet st.pool k = some old →
      ∃ st2, add_statements1 st [(k, v)] = Except.ok st2 ∧
        assocGet st2.pool k = some (mergeValue1 old v)) ∧
    (∀ a b : List PyVal,
      mergeValue2 (PyVal.list a) (PyVal.list b) = PyVal.list (a ++ b) ∧
      mergeValue1 (PyVal.list a) (PyVal.list b) = PyVal.list (a ++ b)) ∧
    (∀ a b : List (String × PyVal),
      mergeValue2 (PyVal.dict a) (PyVal.dict b) = PyVal.dict (dictUpdate a b) ∧
      mergeValue1 (PyVal.dict a) (PyVal.dict b) = PyVal.dict (dictUpdate a b)) ∧
    (∀ (a b : List (String × PyVal)) (k : String),
      (assocGet b k).isSome → assocGet (dictUpdate a b) k = assocGet b k) ∧
    (∀ old v : PyVal,
      ¬ ((isList old && isList v) || (isDict old && isDict v)) = true →
      mergeValue2 old v = v ∧ mergeValue1 old v = PyVal.list [old, v]) := by
  refine ⟨?_, ?_, ?_, ?_, dictUpdate_get_right, ?_⟩
  · intro pool k old v hget
    have : add_statements2 pool [(k, v)] = poolSet pool k (mergeValue2 old v) := by
      unfold add_statements2
      rw [List.foldl_cons, List.foldl_nil, hget]
    rw [this]
    exact assocGet_poolSet pool k (mergeValue2 old v) old hget
  · intro st k old v a t ts n hpre hsp hpi hget
    refine ⟨⟨poolSet st.pool k (mergeValue1 old v), max st.current_round n⟩,
      ?_, assocGet_poolSet st.pool k (mergeValue1 old v) old hget⟩
    simp [add_statements1, hpre, hsp, hpi, hget]
  · intro a b
    exact ⟨rfl, rfl⟩
  · intro a b
    exact ⟨rfl, rfl⟩
  · intro old v hmis
    cases old <;> cases v <;> simp_all [isList, isDict, mergeValue1, mergeValue2]

/-- C6 counterexample: on a kind mismatch (existing dict, new list) the
MDTeamGPT_1 pool stores the two-element wrapper list holding both values,
not the new value, contradicting that a kind mismatch always overwrites. -/
theorem c6_counterexample :
    add_statements1 ⟨[("round 1", PyVal.dict [("a", PyVal.int 1)])], 1⟩
        [("round 1", PyVal.list [PyVal.str "x"])] =
      Except.ok ⟨[("round 1",
        PyVal.list [PyVal.dict [("a", PyVal.int 1)],
          PyVal.list [PyVal.str "x"]])], 1⟩ ∧
    PyVal.list [PyVal.dict [("a", PyVal.int 1)], PyVal.list [PyVal.str "x"]] ≠
      PyVal.list [PyVal.str "x"] := by
  constructor
  · rfl
  · intro h
    injection h with h1
    cases h1

/-- Witness for C6 at concrete pools: a dict-dict merge where the new value
wins, and the mismatch behaviors of both implementations. -/
theorem c6_witness :
    assocGet (add_statements2 [("round 1", PyVal.dict [("a", PyVal.int 1)])]
        [("round 1", PyVal.dict [("a", PyVal.int 2), ("b", PyVal.int 3)])])
        "round 1" =
      some (PyVal.dict [("a", PyVal.int 2), ("b", PyVal.int 3)]) ∧
    mergeValue2 (PyVal.dict [("a", PyVal.int 1)]) (PyVal.list []) =
      PyVal.list [] ∧
    mergeValue1 (PyVal.dict [("a", PyVal.int 1)]) (PyVal.list []) =
      PyVal.list [PyVal.dict [("a", PyVal.int 1)], PyVal.list []] := by
  refine ⟨?_, (c6_merge_semantics.2.2.2.2.2 (PyVal.dict [("a", PyVal.int 1)])
      (PyVal.list []) (by decide)).1,
    (c6_merge_semantics.2.2.2.2.2 (PyVal.dict [("a", PyVal.int 1)])
      (PyVal.list []) (by decide)).2⟩
  have := c6_merge_semantics.1 [("round 1", PyVal.dict [("a", PyVal.int 1)])]
    "round 1" (PyVal.dict [("a", PyVal.int 1)])
    (PyVal.dict [("a", PyVal.int 2), ("b", PyVal.int 3)]) rfl
  rw [this]
  rfl

/-- C10 (amended): add_statements of the MDTeamGPT_1 pool leaves the state
unchanged on an empty statements dict; raises ValueError when the first key
does not start with round-space, or when its second space-separated token
does not parse as a Python int; and on success sets current_round to the
maximum of its old value and the parsed round number, so current_round never
decreases.  The rejected-key form is weaker than the claimed round-N shape:
any first key whose second token parses as an int is accepted, even with
trailing junk. -/
theorem c10_pool1_invariants :
    (∀ st : Pool1, add_statements1 st [] = Except.ok st) ∧
    (∀ (st : Pool1) (k : String) (v : PyVal) (rest : List (String × PyVal)),
      ¬ pyStartswith "round " k = true →
      add_statements1 st ((k, v) :: rest) =
        Except.error "Statement keys must be in format round X") ∧
    (∀ (st : Pool1) (k : String) (v : PyVal) (rest : List (String × PyVal))
        (a t : String) (ts : List String),
      pyStartswith "round " k = true → pySplit " " k = a :: t :: ts →
      pyInt t = Option.none →
      add_statements1 st ((k, v) :: rest) =
        Except.error "Invalid round number format in key") ∧
    (∀ (st : Pool1) (k : String) (v : PyVal) (rest : List (String × PyVal))
        (a t : String) (ts : List String) (n : Int),
      pyStartswith "round " k = true → pySplit " " k = a :: t :: ts →
      pyInt t = some n →
      ∃ st2 : Pool1, add_statements1 st ((k, v) :: rest) = Except.ok st2 ∧
        st2.current_round = max st.current_round n ∧
        st.current_round ≤ st2.current_round) := by
  refine ⟨fun st => rfl, ?_, ?_, ?_⟩
  · intro st k v rest hpre
    simp [add_statements1, hpre]
  · intro st k v rest a t ts hpre hsp hpi
    simp [add_statements1, hpre, hsp, hpi]
  · intro st k v rest a t ts n hpre hsp hpi
    cases hget : assocGet st.pool k with
    | some old =>
      refine ⟨⟨poolSet st.pool k (mergeValue1 old v), max st.current_round n⟩,
        ?_, rfl, le_max_left _ _⟩
      simp [add_statements1, hpre, hsp, hpi, hget]
    | none =>
      refine ⟨⟨st.pool ++ [(k, v)], max st.current_round n⟩,
        ?_, rfl, le_max_left _ _⟩
      simp [add_statements1, hpre, hsp, hpi, hget]

/-- Witness for C10: an empty call, the two rejection shapes, and a
successful call raising current_round from 2 to max 2 7. -/
theorem c10_witness :
    add_statements1 ⟨[], 0⟩ [] = Except.ok ⟨[], 0⟩ ∧
    add_statements1 ⟨[], 0⟩ [("meta", PyVal.int 1)] =
      Except.error "Statement keys must be in format round X" ∧
    add_statements1 ⟨[], 0⟩ [("round x", PyVal.int 1)] =
      Except.error "Invalid round number format in key" ∧
    ∃ st2 : Pool1, add_statements1 ⟨[], 2⟩ [("round 7", PyVal.int 1)] =
      Except.ok st2 ∧ st2.current_round = max 2 7 ∧ (2 : Int) ≤ st2.current_round :=
  ⟨c10_pool1_invariants.1 ⟨[], 0⟩,
   c10_pool1_invariants.2.1 ⟨[], 0⟩ "meta" (PyVal.int 1) [] (by decide),
   c10_pool1_invariants.2.2.1 ⟨[], 0⟩ "round x" (PyVal.int 1) [] "round" "x" []
     (by decide) (by decide) (by decide),
   c10_pool1_invariants.2.2.2 ⟨[], 2⟩ "round 7" (PyVal.int 1) [] "round" "7" []
     7 (by decide) (by decide) (by decide)⟩

/-- C10 counterexample: the key round 1 extra is not of the claimed round-N
form, yet add_statements accepts it (parsing round number 1 from the second
token) and mutates the pool instead of raising ValueError. -/
theorem c10_counterexample :
    add_statements1 ⟨[], 0⟩ [("round 1 extra", PyVal.str "v")] =
      Except.ok ⟨[("round 1 extra", PyVal.str "v")], max 0 1⟩ ∧
    claimRoundKeyForm "round 1 extra" = false :=
  ⟨rfl, rfl⟩

/-- C4 (amended): when the round's stripped choices contain no invalid
choice, are not all identical, and all have the same non-None key, the
non-final-round consensus check reduces to the similarity tier; the tier
converges exactly when the arithmetic mean of the pairwise similarity scores
of the option values strictly exceeds 0.95, and any winner it elects is one
of the choices with maximal count among the round's exact choice strings.
The election is max over set(all_choices) keyed by count, so among tied
maxima it follows the set's unspecified iteration order, not first-seen
order. -/
theorem c4_similarity_tier (sim : String → String → ℚ) (order : List String)
    (ops : List String) (first : String) (rest : List String)
    (hmap : ops.map pyStrip = first :: rest)
    (hval : ∀ c ∈ first :: rest, ¬ c ∈ invalidChoices)
    (hne : ¬ ∀ x ∈ rest, x = first) (k : String)
    (hkeys : ∀ c ∈ first :: rest, extract_key c = some k)
    (hord : order.Perm (dedupFirstSeen (first :: rest))) :
    roundOutcomeV2 sim order ops false =
      simTierResult sim order (first :: rest) ∧
    ((∃ w, simTierResult sim order (first :: rest) = some w) ↔
      avgSim sim ((first :: rest).map valueOf) > 0.95) ∧
    ∀ w, simTierResult sim order (first :: rest) = some w →
      w ∈ first :: rest ∧
      ∀ c ∈ first :: rest,
        (first :: rest).count c ≤ (first :: rest).count w := by
  have hanyf : ((first :: rest).any (fun c => decide (c ∈ invalidChoices))) =
      false := by
    apply List.any_eq_false.mpr
    intro x hx
    simpa using hval x hx
  have hkeycond : (first :: rest).map extract_key =
      some k :: rest.map extract_key := by
    rw [List.map_cons, hkeys first (List.mem_cons_self _ _)]
  have hkeyrest : ∀ x ∈ rest.map extract_key, x = some k := by
    intro x hx
    obtain ⟨c, hc, hce⟩ := List.mem_map.mp hx
    rw [← hce]
    exact hkeys c (List.mem_cons_of_mem _ hc)
  have hsimt : simTierResult sim order (first :: rest) =
      (if avgSim sim ((first :: rest).map valueOf) > 0.95 then
        pyMaxBy (fun c => (first :: rest).count c) order else Option.none) := by
    simp only [simTierResult, hkeycond]
    rw [if_pos ⟨by simp, hkeyrest⟩]
  have hord_ne : order ≠ [] := by
    intro hnil
    have hd := dedupFirstSeen_ne_nil (first :: rest) (by simp)
    have hlen := hord.length_eq
    rw [hnil] at hlen
    cases hde : dedupFirstSeen (first :: rest) with
    | nil => exact hd hde
    | cons a as => rw [hde] at hlen; simp at hlen
  refine ⟨?_, ?_, ?_⟩
  · cases hsr : simTierResult sim order (first :: rest) with
    | some w => simp [roundOutcomeV2, hmap, hanyf, hne, hsr]
    | none => simp [roundOutcomeV2, hmap, hanyf, hne, hsr]
  · rw [hsimt]
    constructor
    · rintro ⟨w, hw⟩
      by_cases havg : avgSim sim ((first :: rest).map valueOf) > 0.95
      · exact havg
      · rw [if_neg havg] at hw
        cases hw
    · intro havg
      rw [if_pos havg]
      cases horder : order with
      | nil => exact absurd horder hord_ne
      | cons o os => exact ⟨_, rfl⟩
  · intro w hw
    rw [hsimt] at hw
    by_cases havg : avgSim sim ((first :: rest).map valueOf) > 0.95
    · rw [if_pos havg] at hw
      obtain ⟨pre, post, hsplit, hpre, hle⟩ :=
        pyMaxBy_spec (fun c => (first :: rest).count c) order w hw
      have hw_order : w ∈ order := by
        rw [hsplit]
        exact List.mem_append_right _ (List.mem_cons_self _ _)
      have hw_dedup : w ∈ dedupFirstSeen (first :: rest) :=
        hord.mem_iff.mp hw_order
      have hw_mem : w ∈ first :: rest := (mem_dedupFirstSeen w _).mp hw_dedup
      refine ⟨hw_mem, ?_⟩
      intro c hc
      have hc_order : c ∈ order :=
        hord.mem_iff.mpr ((mem_dedupFirstSeen c _).mpr hc)
      exact hle c hc_order
    · rw [if_neg havg] at hw
      cases hw

/-- Witness for C4: with two same-key, differently-phrased choices, a
similarity oracle with mean 0.951 converges and one with mean 0.949 does
not. -/
theorem c4_witness :
    (∃ w, simTierResult (fun _ _ => (951 : ℚ)/1000)
      ["A: alpha", "A: beta"] ["A: alpha", "A: beta"] = some w) ∧
    roundOutcomeV2 (fun _ _ => (949 : ℚ)/1000) ["A: alpha", "A: beta"]
      ["A: alpha", "A: beta"] false = Option.none := by
  have h951 := c4_similarity_tier (fun _ _ => (951 : ℚ)/1000)
    ["A: alpha", "A: beta"] ["A: alpha", "A: beta"] "A: alpha" ["A: beta"]
    (by decide) (by decide) (by decide) "A" (by decide) (List.Perm.refl _)
  have h949 := c4_similarity_tier (fun _ _ => (949 : ℚ)/1000)
    ["A: alpha", "A: beta"] ["A: alpha", "A: beta"] "A: alpha" ["A: beta"]
    (by decide) (by decide) (by decide) "A" (by decide) (List.Perm.refl _)
  constructor
  · apply h951.2.1.mpr
    show avgSim (fun _ _ => (951 : ℚ)/1000)
      (["A: alpha", "A: beta"].map valueOf) > 0.95
    norm_num [avgSim, pairsOf]
  · rw [h949.1]
    cases hsr : simTierResult (fun _ _ => (949 : ℚ)/1000)
        ["A: alpha", "A: beta"] ["A: alpha", "A: beta"] with
    | some w =>
      have := h949.2.1.mp ⟨w, hsr⟩
      have hnot : ¬ avgSim (fun _ _ => (949 : ℚ)/1000)
          (["A: alpha", "A: beta"].map valueOf) > 0.95 := by
        norm_num [avgSim, pairsOf]
      exact absurd this hnot
    | none => rfl

/-- C4 counterexample: with a tie between two exact choice strings, a
legitimate set iteration order (the reverse of first-seen order) makes the
similarity tier elect the second-seen choice, while the claimed first-seen
tie-break elects the first-seen one; the code therefore does not implement
the claimed tie-break. -/
theorem c4_counterexample :
    (["B: Amoxicilline", "B: Amoxicillin"].Perm
      (dedupFirstSeen ["B: Amoxicillin", "B: Amoxicilline"])) ∧
    simTierResult (fun _ _ => (24 : ℚ)/25) ["B: Amoxicilline", "B: Amoxicillin"]
      ["B: Amoxicillin", "B: Amoxicilline"] = some "B: Amoxicilline" ∧
    claimFirstSeenWinner ["B: Amoxicillin", "B: Amoxicilline"] =
      some "B: Amoxicillin" ∧
    ("B: Amoxicilline" : String) ≠ "B: Amoxicillin" := by
  refine ⟨?_, ?_, rfl, by decide⟩
  · have hd : dedupFirstSeen ["B: Amoxicillin", "B: Amoxicilline"] =
        ["B: Amoxicillin", "B: Amoxicilline"] := rfl
    rw [hd]
    exact List.Perm.swap _ _ _
  · have havg : avgSim (fun _ _ => (24 : ℚ)/25)
        (["B: Amoxicillin", "B: Amoxicilline"].map valueOf) > 0.95 := by
      norm_num [avgSim, pairsOf]
    have hmapk : (["B: Amoxicillin", "B: Amoxicilline"] : List String).map
        extract_key = [some "B", some "B"] := by decide
    simp only [simTierResult, hmapk]
    rw [if_pos ⟨by simp, by decide⟩, if_pos havg]
    decide

/-- C9 (amended): within a round of MDTeamGPT_2_update, each specialist's
prompt is a function of the case, the round number and the pre-round
lead-physician history only: the prompts of a round are the per-specialist
buildPrompt values whatever the response oracle is, so a later speaker's
prompt does not depend on (and does not include) the opinions produced by
earlier speakers in the same round. -/
theorem c9_prompts_independent (retrieve : String → List SimilarCase)
    (respond respond2 : String → String → Nat → Except Unit String)
    (specs : List String) (question options : String) (round_num : Nat)
    (history : List LeadAnalysis) (hq : ¬ question = "")
    (ho : ¬ options = "") :
    (collectRoundV2 retrieve respond specs question options round_num
        history).prompts =
      specs.map (fun s => buildPrompt retrieve (specialistRole s) s question
        options round_num history) ∧
    (collectRoundV2 retrieve respond specs question options round_num
        history).prompts =
      (collectRoundV2 retrieve respond2 specs question options round_num
        history).prompts := by
  rw [collectRoundV2_eq retrieve respond specs question options round_num
    history hq ho,
    collectRoundV2_eq retrieve respond2 specs question options round_num
    history hq ho]
  exact ⟨rfl, rfl⟩

/-- Response oracle in which the cardiology specialist selects option A. -/
def c9resp1 : String → String → Nat → Except Unit String :=
  fun s _ _ =>
    if s = "cardiology" then
      Except.ok "4. Express Conclusion: Choice: \x7bA\x7d: \x7bZelofiban\x7d"
    else Except.ok "4. Express Conclusion: Choice: \x7bB\x7d: \x7bHeparinol\x7d"

/-- Response oracle identical to c9resp1 except that the cardiology
specialist selects option B instead. -/
def c9resp2 : String → String → Nat → Except Unit String :=
  fun s _ _ =>
    if s = "cardiology" then
      Except.ok "4. Express Conclusion: Choice: \x7bB\x7d: \x7bHeparinol\x7d"
    else Except.ok "4. Express Conclusion: Choice: \x7bB\x7d: \x7bHeparinol\x7d"

set_option maxRecDepth 100000 in
/-- C9 counterexample: in a round-2 run with two speakers, changing the
first speaker opinion (option A versus option B) changes the recorded
opinions but leaves every prompt of the round, including the second
speaker prompt, byte-identical; moreover the second speaker prompt does not
contain the first speaker recorded choice text, so the prompt of a later
speaker neither includes nor depends on the opinions produced earlier in
the same round. -/
theorem c9_counterexample :
    (collectRoundV2 (fun _ => []) c9resp1 ["cardiology", "neurology"] "Q"
        "A: Zelofiban B: Heparinol" 2 []).opinions =
      [("Cardiology Specialist", "\x7bA\x7d: \x7bZelofiban\x7d"),
       ("Neurology Specialist", "\x7bB\x7d: \x7bHeparinol\x7d")] ∧
    (collectRoundV2 (fun _ => []) c9resp2 ["cardiology", "neurology"] "Q"
        "A: Zelofiban B: Heparinol" 2 []).opinions =
      [("Cardiology Specialist", "\x7bB\x7d: \x7bHeparinol\x7d"),
       ("Neurology Specialist", "\x7bB\x7d: \x7bHeparinol\x7d")] ∧
    (collectRoundV2 (fun _ => []) c9resp1 ["cardiology", "neurology"] "Q"
        "A: Zelofiban B: Heparinol" 2 []).prompts =
      (collectRoundV2 (fun _ => []) c9resp2 ["cardiology", "neurology"] "Q"
        "A: Zelofiban B: Heparinol" 2 []).prompts ∧
    containsSub "\x7bA\x7d: \x7bZelofiban\x7d"
      (buildPrompt (fun _ => []) "Neurology Specialist" "neurology" "Q"
        "A: Zelofiban B: Heparinol" 2 []) = false :=
  ⟨rfl, rfl, rfl, rfl⟩

/-- Witness for C9: the prompts of the two-speaker round are identical under
the two response oracles. -/
theorem c9_witness :
    (collectRoundV2 (fun _ => []) c9resp1 ["cardiology", "neurology"] "Q"
        "A: Zelofiban B: Heparinol" 2 []).prompts =
      (collectRoundV2 (fun _ => []) c9resp2 ["cardiology", "neurology"] "Q"
        "A: Zelofiban B: Heparinol" 2 []).prompts :=
  (c9_prompts_independent (fun _ => []) c9resp1 c9resp2
    ["cardiology", "neurology"] "Q" "A: Zelofiban B: Heparinol" 2 []
    (by decide) (by decide)).2

/-- The letter consumed by takeUpper is in the A-Z range. -/
theorem takeUpper_bounds {l : List Char} {L : Char} {r : List Char}
    (h : takeUpper l = some (L, r)) : 'A' ≤ L ∧ L ≤ 'Z' := by
  cases l with
  | nil => cases h
  | cons c rest =>
    by_cases hc : 'A' ≤ c ∧ c ≤ 'Z'
    · have h2 : some (c, rest) = some (L, r) := by
        rw [← h]
        simp [takeUpper, hc]
      cases h2
      exact hc
    · have h2 : (Option.none : Option (Char × List Char)) = some (L, r) := by
        rw [← h]
        simp [takeUpper, hc]
      cases h2

/-- The letter of a strict-pattern match is in the A-Z range. -/
theorem matchStrictAt_upper {l : List Char} {L : Char} {ws v : List Char}
    (h : matchStrictAt l = some (L, ws, v)) : 'A' ≤ L ∧ L ≤ 'Z' := by
  unfold matchStrictAt at h
  simp only [Option.bind_eq_some] at h
  obtain ⟨l1, _, h⟩ := h
  obtain ⟨l3, _, h⟩ := h
  obtain ⟨⟨L2, l4⟩, h4, h⟩ := h
  obtain ⟨l5, _, h⟩ := h
  obtain ⟨l6, _, h⟩ := h
  obtain ⟨l8, _, h⟩ := h
  by_cases hemp : (l8.takeWhile (· ≠ rcb)).isEmpty = true
  · rw [if_pos hemp] at h
    cases h
  · rw [if_neg hemp] at h
    simp only [Option.bind_eq_some] at h
    obtain ⟨l9, _, h⟩ := h
    cases h
    exact takeUpper_bounds h4

/-- The letter of a content-pattern match is in the A-Z range. -/
theorem matchContentAt_upper {l : List Char} {L : Char} {med : List Char}
    (h : matchContentAt l = some (L, med)) : 'A' ≤ L ∧ L ≤ 'Z' := by
  unfold matchContentAt at h
  simp only [Option.bind_eq_some] at h
  obtain ⟨l1, _, h⟩ := h
  obtain ⟨⟨L2, l3⟩, h3, h⟩ := h
  obtain ⟨l4, _, h⟩ := h
  obtain ⟨m, _, h⟩ := h
  cases h
  exact takeUpper_bounds h3

/-- The scan for the strict pattern only returns A-Z letters. -/
theorem searchStrict_upper {t : List Char} {L : Char} {ws v : List Char}
    (h : searchStrict t = some (L, ws, v)) : 'A' ≤ L ∧ L ≤ 'Z' := by
  induction t with
  | nil => cases h
  | cons c rest ih =>
    unfold searchStrict at h
    cases hm : matchStrictAt (c :: rest) with
    | some r =>
      rw [hm] at h
      cases h
      exact matchStrictAt_upper hm
    | none =>
      rw [hm] at h
      exact ih h

/-- The scan for the content pattern only returns A-Z letters. -/
theorem searchContent_upper {t : List Char} {L : Char} {med : List Char}
    (h : searchContent t = some (L, med)) : 'A' ≤ L ∧ L ≤ 'Z' := by
  induction t with
  | nil => cases h
  | cons c rest ih =>
    unfold searchContent at h
    cases hm : matchContentAt (c :: rest) with
    | some r =>
      rw [hm] at h
      cases h
      exact matchContentAt_upper hm
    | none =>
      rw [hm] at h
      exact ih h

/-- Stripping does nothing when neither end of a list is whitespace. -/
theorem stripList_eq_self (l : List Char)
    (hh : ∀ c, l.head? = some c → pyIsSpace c = false)
    (hl : ∀ c, l.getLast? = some c → pyIsSpace c = false) :
    stripList l = l := by
  unfold stripList
  have h1 : l.dropWhile pyIsSpace = l := by
    cases l with
    | nil => rfl
    | cons c cs =>
      rw [List.dropWhile_cons, hh c rfl]
      simp
  rw [h1]
  have h2 : l.reverse.dropWhile pyIsSpace = l.reverse := by
    cases hrev : l.reverse with
    | nil => rfl
    | cons c cs =>
      rw [List.dropWhile_cons]
      have hgl : l.getLast? = some c := by
        rw [← List.head?_reverse, hrev]
        rfl
      rw [hl c hgl]
      simp
  rw [h2, List.reverse_reverse]

/-- C1 (amended): the parsing path that accepts an Opinion is purely
syntactic: every non-empty parsed choice has the shape of a braced A-Z
letter, a colon, and a braced value, and the case options never enter the
check; the orchestrator then stores whatever opinions the round produced
verbatim under the round key, so an opinion whose selected option does not
match any entry of the case options is accepted and stored rather than
rejected. -/
theorem c1_option_not_validated :
    (∀ text : String, parseChoiceSection text ≠ "" →
      ∃ (L : Char) (mid : List Char), ('A' ≤ L ∧ L ≤ 'Z') ∧
        (parseChoiceSection text).data =
          lcb :: L :: rcb :: ':' :: mid ++ [rcb]) ∧
    (∀ (pool : List (String × PyVal)) (round_num : Nat) (ops : List PyVal),
      assocGet pool (s!"round {round_num}") = Option.none →
      assocGet (add_statements2 pool (roundDataV2 round_num ops))
          (s!"round {round_num}") =
        some (PyVal.dict [("specialist_opinions", PyVal.list ops)])) := by
  constructor
  · intro text hne
    cases hs : searchStrict text.data with
    | some res =>
      obtain ⟨L, ws, v⟩ := res
      have hp : parseChoiceSection text =
          pyStrip (String.mk (lcb :: L :: rcb :: ':' :: ws ++ lcb :: v ++
            [rcb])) := by
        simp [parseChoiceSection, hs]
      rw [hp]
      refine ⟨L, ws ++ lcb :: v, searchStrict_upper hs, ?_⟩
      have hform : (lcb :: L :: rcb :: ':' :: ws ++ lcb :: v ++ [rcb] :
          List Char) =
          (lcb :: L :: rcb :: ':' :: (ws ++ lcb :: v)) ++ [rcb] := by
        simp [List.append_assoc]
      have hh : ∀ c, (lcb :: L :: rcb :: ':' :: ws ++ lcb :: v ++ [rcb] :
          List Char).head? = some c → pyIsSpace c = false := by
        intro c hc
        cases hc
        rfl
      have hl : ∀ c, (lcb :: L :: rcb :: ':' :: ws ++ lcb :: v ++ [rcb] :
          List Char).getLast? = some c → pyIsSpace c = false := by
        intro c hc
        rw [hform, List.getLast?_concat] at hc
        cases hc
        rfl
      have hdata : (pyStrip (String.mk (lcb :: L :: rcb :: ':' :: ws ++
          lcb :: v ++ [rcb]))).data =
          stripList (lcb :: L :: rcb :: ':' :: ws ++ lcb :: v ++ [rcb]) := rfl
      rw [hdata, stripList_eq_self _ hh hl]
      simp [List.append_assoc]
    | none =>
      cases hc : searchContent text.data with
      | some res =>
        obtain ⟨L, med⟩ := res
        have hp : parseChoiceSection text =
            String.mk (lcb :: L :: rcb :: ':' :: ' ' :: lcb ::
              stripCharsList [' ', '.'] med ++ [rcb]) := by
          simp [parseChoiceSection, hs, hc]
        rw [hp]
        exact ⟨L, ' ' :: lcb :: stripCharsList [' ', '.'] med,
          searchContent_upper hc, by simp⟩
      | none =>
        have hp : parseChoiceSection text = "" := by
          simp [parseChoiceSection, hs, hc]
        exact absurd hp hne
  · intro pool round_num ops hget
    have hstep : add_statements2 pool (roundDataV2 round_num ops) =
        pool ++ [(s!"round {round_num}",
          PyVal.dict [("specialist_opinions", PyVal.list ops)])] := by
      unfold add_statements2 roundDataV2
      rw [List.foldl_cons, List.foldl_nil, hget]
    rw [hstep]
    unfold assocGet at hget ⊢
    rw [List.find?_append]
    have hnone : pool.find? (fun kv => kv.1 = s!"round {round_num}") =
        Option.none := by
      cases hf : pool.find? (fun kv => kv.1 = s!"round {round_num}") with
      | none => rfl
      | some kv =>
        rw [hf] at hget
        cases hget
    rw [hnone]
    simp

/-- Witness for C1: a concrete response selecting an option outside the
case options parses to a shaped choice and is stored in the round data. -/
theorem c1_witness :
    (∃ (L : Char) (mid : List Char), ('A' ≤ L ∧ L ≤ 'Z') ∧
      (parseChoiceSection
        "4. Express Conclusion: Choice: \x7bZ\x7d: \x7bLeeches\x7d").data =
        lcb :: L :: rcb :: ':' :: mid ++ [rcb]) ∧
    assocGet (add_statements2 (initPool2 (PyVal.int 7) "TS")
        (roundDataV2 1 [opinionVal "Cardiology Specialist" ""
          "\x7bZ\x7d: \x7bLeeches\x7d"])) "round 1" =
      some (PyVal.dict [("specialist_opinions",
        PyVal.list [opinionVal "Cardiology Specialist" ""
          "\x7bZ\x7d: \x7bLeeches\x7d"])]) :=
  ⟨c1_option_not_validated.1
      "4. Express Conclusion: Choice: \x7bZ\x7d: \x7bLeeches\x7d" (by decide),
   c1_option_not_validated.2 (initPool2 (PyVal.int 7) "TS") 1
      [opinionVal "Cardiology Specialist" "" "\x7bZ\x7d: \x7bLeeches\x7d"] rfl⟩

/-- C1 counterexample: the response selecting Z Leeches, an option absent
from the case options A Penicillin and B Clindamycin, is parsed to the
choice string brace-Z-brace colon brace-Leeches-brace, which differs from
the rendering of every case option entry, and the orchestrator stores it
verbatim in the round data of the pool instead of rejecting it. -/
theorem c1_counterexample :
    parseChoiceSection
        "1. Patient Condition Analysis: unclear. 4. Express Conclusion: Choice: \x7bZ\x7d: \x7bLeeches\x7d"
      = "\x7bZ\x7d: \x7bLeeches\x7d" ∧
    (([("A", "Penicillin"), ("B", "Clindamycin")] :
        List (String × String)).all (fun e =>
      !("\x7b" ++ e.1 ++ "\x7d: \x7b" ++ e.2 ++ "\x7d" ==
        "\x7bZ\x7d: \x7bLeeches\x7d"))) = true ∧
    assocGet (add_statements2 (initPool2 (PyVal.int 7) "TS")
        (roundDataV2 1 [opinionVal "Cardiology Specialist" ""
          "\x7bZ\x7d: \x7bLeeches\x7d"])) "round 1" =
      some (PyVal.dict [("specialist_opinions",
        PyVal.list [opinionVal "Cardiology Specialist" ""
          "\x7bZ\x7d: \x7bLeeches\x7d"])]) :=
  ⟨rfl, by decide, rfl⟩

end MDT
